import Mathlib

/-!
Verification of the vizia context layer (event/draw context projections).

This file gives a shallow embedding of the three source files
  - crates/vizia_core/src/context/event.rs
  - crates/vizia_core/src/context/draw.rs
  - crates/vizia_style/src/values/length_or_percentage.rs
and proves or refutes the frozen claims about them.

Machine floats (f32/f64) are embedded as exact rationals; `as u8` casts and
`f32::round` are modelled explicitly.  Helpers of this repository that are not
part of the three files above (BoundingBox arithmetic, Style unit conversion,
the clip-path side resolution, transform-value resolution) are modelled from
the specification and marked as such in their doc comments.
-/

/-- Entities are generation-stamped identifiers; the embedding only needs a
countable identifier space, so entities are naturals. -/
abbrev Entity := Nat

/-- Sentinel returned by `Entity::null()`. -/
def Entity.null : Entity := 0

/-- Identifier of the root entity, `Entity::root()`. -/
def Entity.root : Entity := 1

/-- Rounding of `f32::round`: nearest integer, half-way cases away from zero. -/
def roundQ (q : ℚ) : ℚ :=
  if q < 0 then -(((⌊-q + 1/2⌋ : ℤ) : ℚ)) else ((⌊q + 1/2⌋ : ℤ) : ℚ)

/-- The saturating `as u8` cast applied to a nonnegative-or-negative float,
modelled on rationals: truncate toward zero, clamp into `[0, 255]`. -/
def f32AsU8 (q : ℚ) : ℕ := min 255 (Int.toNat ⌊q⌋)

/-! ## vizia_style: lengths (src/crates/vizia_style/src/values/length_or_percentage.rs) -/

/-- Length values.  `Px` carries pixels; all non-pixel units (em, vw, ...) of
the real `LengthValue` enum are collapsed into `OtherUnit` because
`LengthOrPercentage::to_pixels` ignores every non-`Px` unit (falls through to
`0.0`). -/
inductive LengthValue where
  | Px (pixels : ℚ)
  | OtherUnit
deriving DecidableEq, Repr

/-- A length: a direct value or a calc expression.  `to_pixels` hits a
`todo!()` panic on `Calc`, modelled below by `none`. -/
inductive Length where
  | Value (val : LengthValue)
  | Calc
deriving DecidableEq, Repr

/-- A length or a percentage value. -/
inductive LengthOrPercentage where
  | Length (l : Length)
  | Percentage (val : ℚ)
deriving DecidableEq, Repr

/-- Source `LengthOrPercentage::to_pixels`: `Px` returns the pixels, a
percentage multiplies by `min_bounds`, any other unit falls through to `0.0`,
and `Calc` panics (`todo!()`), modelled as `none`. -/
def LengthOrPercentage.to_pixels (lp : LengthOrPercentage) (min_bounds : ℚ) : Option ℚ :=
  match lp with
  | .Length (.Value (.Px pixels)) => some pixels
  | .Length (.Value .OtherUnit) => some 0
  | .Length .Calc => none
  | .Percentage val => some (val * min_bounds)

/-- Modelled from the spec: the two-argument `to_pixels` used on clip-path
side insets (that overload lives in a vizia_style file that is not part of the
sources).  Percentages resolve against the given extent; pixel lengths are
scaled by the scale factor; other cases resolve to zero. -/
def toPixels2 (lp : LengthOrPercentage) (extent scale : ℚ) : ℚ :=
  match lp with
  | .Length (.Value (.Px pixels)) => pixels * scale
  | .Length (.Value .OtherUnit) => 0
  | .Length .Calc => 0
  | .Percentage val => val * extent

/-! ## BoundingBox (vizia_core cache; helpers modelled from the spec) -/

/-- Axis-aligned rectangle in physical pixels, `(x, y, w, h)` (spec section 3). -/
structure BoundingBox where
  x : ℚ
  y : ℚ
  w : ℚ
  h : ℚ
deriving DecidableEq, Repr

/-- Modelled from the spec: left edge of a bounding box. -/
def BoundingBox.left (b : BoundingBox) : ℚ := b.x

/-- Modelled from the spec: right edge of a bounding box. -/
def BoundingBox.right (b : BoundingBox) : ℚ := b.x + b.w

/-- Modelled from the spec: top edge of a bounding box. -/
def BoundingBox.top (b : BoundingBox) : ℚ := b.y

/-- Modelled from the spec: bottom edge of a bounding box. -/
def BoundingBox.bottom (b : BoundingBox) : ℚ := b.y + b.h

/-- Modelled from the spec: center point of a bounding box. -/
def BoundingBox.center (b : BoundingBox) : ℚ × ℚ := (b.x + b.w / 2, b.y + b.h / 2)

/-- Modelled from the spec: `BoundingBox::from_min_max` builds a box from its
four edges (the helper itself lives outside the provided sources). -/
def BoundingBox.from_min_max (l t r b : ℚ) : BoundingBox := ⟨l, t, r - l, b - t⟩

/-- Modelled from the spec: `BoundingBox::shrink_sides` shrinks a box by the
given inset on each of the four sides (left, top, right, bottom). -/
def BoundingBox.shrink_sides (bb : BoundingBox) (l t r b : ℚ) : BoundingBox :=
  ⟨bb.x + l, bb.y + t, bb.w - (l + r), bb.h - (t + b)⟩

/-! ## Style unit conversion (Style methods modelled from the spec) -/

/-- Modelled from the spec: `Style::logical_to_physical` multiplies by the dpi
factor (glossary: physical = logical x dpi factor). -/
def Style.logical_to_physical (dpi logical : ℚ) : ℚ := logical * dpi

/-- Modelled from the spec: `Style::physical_to_logical` divides by the dpi
factor, inverting `Style::logical_to_physical`. -/
def Style.physical_to_logical (dpi physical : ℚ) : ℚ := physical / dpi

/-- Source `EventContext::logical_to_physical` delegates to the style. -/
def EventContext.logical_to_physical (dpi logical : ℚ) : ℚ :=
  Style.logical_to_physical dpi logical

/-- Source `EventContext::physical_to_logical` delegates to the style. -/
def EventContext.physical_to_logical (dpi physical : ℚ) : ℚ :=
  Style.physical_to_logical dpi physical

/-! ## Clip region (EventContext::clip_region) -/

/-- Per-axis overflow mode. -/
inductive Overflow where
  | Visible
  | Hidden
deriving DecidableEq, Repr

/-- Modelled from the spec: the derived `Default` of `Overflow` is `Visible`
(the CSS default, and the spec table's base row). -/
def Overflow.default : Overflow := Overflow.Visible

/-- Clip-path style: `Auto` or an explicit shape carrying the four side insets
in source order `(rect.0, rect.1, rect.2, rect.3)`. -/
inductive ClipPath where
  | Auto
  | Shape (r0 r1 r2 r3 : LengthOrPercentage)
deriving DecidableEq, Repr

/-- The entity's own clip box, mirroring event.rs lines 138-151: the bounds,
or for an explicit shape the bounds shrunk per side by the resolved insets
(sides resolved exactly as in the source call:
`shrink_sides(l2p(rect.3 vs w), l2p(rect.0 vs h), l2p(rect.1 vs w), l2p(rect.2 vs h))`). -/
def EventContext.clipBox (clip_path : Option ClipPath) (bounds : BoundingBox) (dpi : ℚ) :
    BoundingBox :=
  let scale := dpi
  match clip_path with
  | some ClipPath.Auto => bounds
  | some (ClipPath.Shape r0 r1 r2 r3) =>
      bounds.shrink_sides
        (Style.logical_to_physical dpi (toPixels2 r3 bounds.w scale))
        (Style.logical_to_physical dpi (toPixels2 r0 bounds.h scale))
        (Style.logical_to_physical dpi (toPixels2 r1 bounds.w scale))
        (Style.logical_to_physical dpi (toPixels2 r2 bounds.h scale))
  | none => bounds

/-- Source `EventContext::clip_region` (event.rs lines 129-171), with the
per-entity style reads (`overflowx`, `overflowy`, `clip_path`) and cache reads
(own bounds, root bounds) passed in directly. -/
def EventContext.clip_region (overflowx overflowy : Option Overflow)
    (clip_path : Option ClipPath) (bounds root_bounds : BoundingBox) (dpi : ℚ) :
    BoundingBox :=
  let ox := overflowx.getD Overflow.default
  let oy := overflowy.getD Overflow.default
  let clip_bounds := EventContext.clipBox clip_path bounds dpi
  match ox, oy with
  | Overflow.Visible, Overflow.Visible => root_bounds
  | Overflow.Hidden, Overflow.Visible =>
      BoundingBox.from_min_max clip_bounds.left root_bounds.top
        clip_bounds.right root_bounds.bottom
  | Overflow.Visible, Overflow.Hidden =>
      BoundingBox.from_min_max root_bounds.left clip_bounds.top
        root_bounds.right clip_bounds.bottom
  | Overflow.Hidden, Overflow.Hidden => clip_bounds

/-- The clip region exactly as the specification words it: each axis is
computed independently (the hidden axis takes the entity's own clip box
extent, the visible axis takes the root bounds extent) and the two axes are
then combined into one rectangle. -/
def EventContext.clip_region_axiswise (overflowx overflowy : Option Overflow)
    (clip_path : Option ClipPath) (bounds root_bounds : BoundingBox) (dpi : ℚ) :
    BoundingBox :=
  let ox := overflowx.getD Overflow.default
  let oy := overflowy.getD Overflow.default
  let cb := EventContext.clipBox clip_path bounds dpi
  let lr := if ox = Overflow.Hidden then (cb.left, cb.right)
            else (root_bounds.left, root_bounds.right)
  let tb := if oy = Overflow.Hidden then (cb.top, cb.bottom)
            else (root_bounds.top, root_bounds.bottom)
  BoundingBox.from_min_max lr.1 tb.1 lr.2 tb.2

/-! ## Transform composition (EventContext::transform) -/

/-- femtovg `Transform2D`, a 2D affine transform stored as the six entries
`[a, b, c, d, e, f]` (femtovg is an external crate; its transform arithmetic
is standard nanovg matrix algebra, reproduced here over exact rationals). -/
structure Transform2D where
  a : ℚ
  b : ℚ
  c : ℚ
  d : ℚ
  e : ℚ
  f : ℚ
deriving DecidableEq, Repr

/-- femtovg `Transform2D::identity`. -/
def Transform2D.identity : Transform2D := ⟨1, 0, 0, 1, 0, 0⟩

/-- femtovg `Transform2D::new_translation`. -/
def Transform2D.new_translation (x y : ℚ) : Transform2D := ⟨1, 0, 0, 1, x, y⟩

/-- femtovg `Transform2D::multiply` (`self = self * other` in nanovg's
row-vector convention). -/
def Transform2D.multiply (t s : Transform2D) : Transform2D :=
  ⟨t.a * s.a + t.b * s.c,
   t.a * s.b + t.b * s.d,
   t.c * s.a + t.d * s.c,
   t.c * s.b + t.d * s.d,
   t.e * s.a + t.f * s.c + s.e,
   t.e * s.b + t.f * s.d + s.f⟩

/-- femtovg `Transform2D::premultiply`: `self = other * self`. -/
def Transform2D.premultiply (t o : Transform2D) : Transform2D := Transform2D.multiply o t

/-- femtovg `Transform2D::inverse`: inverts the transform in place; a
non-invertible transform becomes the identity. -/
def Transform2D.inverse (t : Transform2D) : Transform2D :=
  let det := t.a * t.d - t.c * t.b
  if det = 0 then Transform2D.identity
  else
    ⟨t.d / det, -t.b / det, -t.c / det, t.a / det,
     (t.c * t.f - t.d * t.e) / det, (t.b * t.e - t.a * t.f) / det⟩

/-- Modelled from the spec: the keyframe interpolation substituted for an
actively animating transform property — interpolation with parameter `t`,
taken entrywise between the two endpoint transforms (the `Interpolator`
implementation lives outside the provided sources). -/
def Transform2D.interpolate (t0 t1 : Transform2D) (t : ℚ) : Transform2D :=
  ⟨t0.a + (t1.a - t0.a) * t, t0.b + (t1.b - t0.b) * t,
   t0.c + (t1.c - t0.c) * t, t0.d + (t1.d - t0.d) * t,
   t0.e + (t1.e - t0.e) * t, t0.f + (t1.f - t0.f) * t⟩

/-- A transform-origin position: a horizontal and a vertical
length-or-percentage. -/
structure PositionValue where
  px : LengthOrPercentage
  py : LengthOrPercentage
deriving DecidableEq, Repr

/-- Modelled from the spec: the origin offset transform produced by
`transform_origin.into_transform(bounds, scale_factor)` — a translation to the
origin point resolved inside the bounds (percentages against the bounds
extents, pixel lengths scaled). -/
def originOffset (p : PositionValue) (bounds : BoundingBox) (scale : ℚ) : Transform2D :=
  Transform2D.new_translation (toPixels2 p.px bounds.w scale) (toPixels2 p.py bounds.h scale)

/-- The transform-relevant styled values of the current entity.  The
`translate`, `rotate`, `scale` and `transform` fields hold the sub-transforms
already resolved by `into_transform` against the current bounds and scale
factor (that resolution is deterministic in the styled value, the bounds and
the scale factor, and lives outside the provided sources); the animation field
holds the resolved keyframe transforms of an active `transform` animation
together with its interpolation parameter `t`. -/
structure TransformStyle where
  transform_origin : Option PositionValue
  translate : Option Transform2D
  rotate : Option Transform2D
  scale : Option Transform2D
  transform : Option Transform2D
  transform_animation : Option (List Transform2D × ℚ)
deriving DecidableEq, Repr

/-- The origin transform of event.rs lines 197-208: a translation to the
explicit transform-origin point when styled, else a translation to the
entity's own bounds center. -/
def EventContext.transformOrigin (st : TransformStyle) (bounds : BoundingBox) (scale : ℚ) :
    Transform2D :=
  match st.transform_origin with
  | some p => (Transform2D.new_translation bounds.left bounds.top).premultiply
      (originOffset p bounds scale)
  | none => Transform2D.new_translation bounds.center.1 bounds.center.2

/-- Source `EventContext::transform` (event.rs lines 191-251): start from the
identity, premultiply the origin transform, then translation, rotation,
scaling, the function-list transform (substituting the first-to-last keyframe
interpolation when the property is actively animating), and finally the
inverted origin transform. -/
def EventContext.transform (st : TransformStyle) (bounds : BoundingBox) (scale : ℚ) :
    Transform2D :=
  let origin := EventContext.transformOrigin st bounds scale
  let t1 := Transform2D.identity.premultiply origin
  let originInv := origin.inverse
  let t2 := match st.translate with
    | some m => t1.premultiply m
    | none => t1
  let t3 := match st.rotate with
    | some m => t2.premultiply m
    | none => t2
  let t4 := match st.scale with
    | some m => t3.premultiply m
    | none => t3
  let t5 := match st.transform with
    | some m =>
      match st.transform_animation with
      | some (kfs, t) =>
        match kfs.head?, kfs.getLast? with
        | some first, some last => t4.premultiply (Transform2D.interpolate first last t)
        | _, _ => t4
      | none => t4.premultiply m
    | none => t4
  t5.premultiply originInv

/-! ## DrawContext property accessors (draw.rs) -/

/-- An 8-bit RGBA color. -/
structure Color where
  r : ℕ
  g : ℕ
  b : ℕ
  a : ℕ
deriving DecidableEq, Repr

/-- `Color::rgba`. -/
def Color.rgba (r g b a : ℕ) : Color := ⟨r, g, b, a⟩

/-- The color- and length-valued style properties read by the draw context
accessors under scrutiny; each is an optional per-entity value. -/
structure DrawStyle where
  background_color : Option Color
  border_color : Option Color
  outline_color : Option Color
  selection_color : Option Color
  caret_color : Option Color
  font_color : Option Color
  border_width : Option LengthOrPercentage
  outline_width : Option LengthOrPercentage
  outline_offset : Option LengthOrPercentage
  border_top_left_radius : Option LengthOrPercentage
  border_top_right_radius : Option LengthOrPercentage
  border_bottom_left_radius : Option LengthOrPercentage
  border_bottom_right_radius : Option LengthOrPercentage
deriving DecidableEq, Repr

/-- The draw view over the current entity: its styled properties, its cached
opacity (`cache.get_opacity`), its cached bounds and the style's dpi factor. -/
structure DrawView where
  style : DrawStyle
  opacity : ℚ
  bounds : BoundingBox
  dpi_factor : ℚ
deriving DecidableEq, Repr

/-- Source `DrawContext::logical_to_physical` (draw.rs lines 149-151):
multiplies by the dpi factor. -/
def DrawContext.logical_to_physical (dpi logical : ℚ) : ℚ := logical * dpi

/-- Source `DrawContext::physical_to_logical` (draw.rs lines 154-156): the
body also MULTIPLIES by the dpi factor (`physical * dpi_factor`), despite the
doc comment announcing a conversion from physical pixels to logical points. -/
def DrawContext.physical_to_logical (dpi physical : ℚ) : ℚ := physical * dpi

/-- Source macro `get_color_property!` (draw.rs lines 79-90): a stored color
keeps its rgb channels and has its alpha multiplied by the cached opacity
(then cast back to `u8`); an absent color resolves to transparent black. -/
def DrawContext.get_color_property (stored : Option Color) (opacity : ℚ) : Color :=
  match stored with
  | some col => Color.rgba col.r col.g col.b (f32AsU8 (opacity * (col.a : ℚ)))
  | none => Color.rgba 0 0 0 0

/-- Accessor `DrawContext::background_color` (expanded from the macro). -/
def DrawContext.background_color (cx : DrawView) : Color :=
  DrawContext.get_color_property cx.style.background_color cx.opacity

/-- Accessor `DrawContext::border_color` (expanded from the macro). -/
def DrawContext.border_color (cx : DrawView) : Color :=
  DrawContext.get_color_property cx.style.border_color cx.opacity

/-- Accessor `DrawContext::outline_color` (expanded from the macro). -/
def DrawContext.outline_color (cx : DrawView) : Color :=
  DrawContext.get_color_property cx.style.outline_color cx.opacity

/-- Accessor `DrawContext::selection_color` (expanded from the macro). -/
def DrawContext.selection_color (cx : DrawView) : Color :=
  DrawContext.get_color_property cx.style.selection_color cx.opacity

/-- Accessor `DrawContext::caret_color` (expanded from the macro). -/
def DrawContext.caret_color (cx : DrawView) : Color :=
  DrawContext.get_color_property cx.style.caret_color cx.opacity

/-- Source `DrawContext::font_color` (draw.rs lines 218-225): written out by
hand in the source; same multiplication for a stored color, but the absent
default is opaque black. -/
def DrawContext.font_color (cx : DrawView) : Color :=
  match cx.style.font_color with
  | some col => Color.rgba col.r col.g col.b (f32AsU8 (cx.opacity * (col.a : ℚ)))
  | none => Color.rgba 0 0 0 255

/-- Source macro `get_length_property!` (draw.rs lines 92-105): a stored
length resolves against `min(bounds.w, bounds.h)`, is converted to physical
pixels and rounded; an absent length resolves to `0.0`.  The `none` result
models the `todo!()` panic reachable through a `Calc` length. -/
def DrawContext.get_length_property (stored : Option LengthOrPercentage)
    (bounds : BoundingBox) (dpi : ℚ) : Option ℚ :=
  match stored with
  | some length =>
      (length.to_pixels (min bounds.w bounds.h)).map
        (fun px => roundQ (DrawContext.logical_to_physical dpi px))
  | none => some 0

/-- Accessor `DrawContext::border_width` (expanded from the macro). -/
def DrawContext.border_width (cx : DrawView) : Option ℚ :=
  DrawContext.get_length_property cx.style.border_width cx.bounds cx.dpi_factor

/-- Accessor `DrawContext::outline_width` (expanded from the macro). -/
def DrawContext.outline_width (cx : DrawView) : Option ℚ :=
  DrawContext.get_length_property cx.style.outline_width cx.bounds cx.dpi_factor

/-- Accessor `DrawContext::outline_offset` (expanded from the macro). -/
def DrawContext.outline_offset (cx : DrawView) : Option ℚ :=
  DrawContext.get_length_property cx.style.outline_offset cx.bounds cx.dpi_factor

/-- Accessor `DrawContext::border_top_left_radius` (expanded from the macro). -/
def DrawContext.border_top_left_radius (cx : DrawView) : Option ℚ :=
  DrawContext.get_length_property cx.style.border_top_left_radius cx.bounds cx.dpi_factor

/-- Accessor `DrawContext::border_top_right_radius` (expanded from the macro). -/
def DrawContext.border_top_right_radius (cx : DrawView) : Option ℚ :=
  DrawContext.get_length_property cx.style.border_top_right_radius cx.bounds cx.dpi_factor

/-- Accessor `DrawContext::border_bottom_left_radius` (expanded from the macro). -/
def DrawContext.border_bottom_left_radius (cx : DrawView) : Option ℚ :=
  DrawContext.get_length_property cx.style.border_bottom_left_radius cx.bounds cx.dpi_factor

/-- Accessor `DrawContext::border_bottom_right_radius` (expanded from the macro). -/
def DrawContext.border_bottom_right_radius (cx : DrawView) : Option ℚ :=
  DrawContext.get_length_property cx.style.border_bottom_right_radius cx.bounds cx.dpi_factor

/-! ## Gradient resolution (DrawContext::draw_gradient) -/

/-- Horizontal line-direction keyword. -/
inductive HorizontalPositionKeyword where
  | Left
  | Right
deriving DecidableEq, Repr

/-- Vertical line-direction keyword. -/
inductive VerticalPositionKeyword where
  | Top
  | Bottom
deriving DecidableEq, Repr

/-- Direction of a linear gradient.  The source match also carries a wildcard
arm, so the remaining variant (an explicit angle) is kept. -/
inductive LineDirection where
  | Horizontal (h : HorizontalPositionKeyword)
  | Vertical (v : VerticalPositionKeyword)
  | Corner (horizontal : HorizontalPositionKeyword) (vertical : VerticalPositionKeyword)
  | Angle (deg : ℚ)
deriving DecidableEq, Repr

/-- A gradient stop: an optional explicit position and a color. -/
structure GradientStop where
  position : Option LengthOrPercentage
  color : Color
deriving DecidableEq, Repr

/-- A linear gradient. -/
structure LinearGradient where
  direction : LineDirection
  stops : List GradientStop
deriving DecidableEq, Repr

/-- A background gradient; only the linear variant is handled by
`draw_gradient` (the wildcard arm leaves the paint untouched). -/
inductive Gradient where
  | Linear (g : LinearGradient)
  | OtherGradient
deriving DecidableEq, Repr

/-- The linear-gradient paint produced by
`Paint::linear_gradient_stops(x0, y0, x1, y1, stops)`. -/
structure Paint where
  x0 : ℚ
  y0 : ℚ
  x1 : ℚ
  y1 : ℚ
  stops : List (ℚ × Color)
deriving DecidableEq, Repr

/-- The direction match of draw.rs lines 382-415, producing the 5-tuple
`(_, _, end_x, end_y, parent_length)`. -/
def DrawContext.gradientLine (dir : LineDirection) (bounds : BoundingBox)
    (parent_width parent_height : ℚ) : ℚ × ℚ × ℚ × ℚ × ℚ :=
  match dir with
  | .Horizontal .Left => (0, 0, bounds.w, 0, parent_width)
  | .Horizontal .Right => (0, 0, bounds.w, 0, parent_width)
  | .Vertical .Bottom => (0, 0, 0, bounds.h, parent_height)
  | .Vertical .Top => (0, 0, 0, bounds.h, parent_height)
  | .Corner .Right .Bottom => (0, 0, bounds.w, bounds.h, parent_width)
  | .Corner _ _ => (0, 0, 0, 0, 0)
  | .Angle _ => (0, 0, 0, 0, 0)

/-- The stop mapping of draw.rs lines 419-432, indexed from `i`: an explicit
position resolves through `to_pixels` against the governing parent length and
is divided by that length; an unpositioned stop gets `index / (num_stops - 1)`.
`none` models the `todo!()` panic reachable through a `Calc` position. -/
def DrawContext.resolveStops (parent_length : ℚ) (num_stops : ℕ) :
    ℕ → List GradientStop → Option (List (ℚ × Color))
  | _, [] => some []
  | i, stop :: rest =>
    let posQ : Option ℚ := match stop.position with
      | some pos => (pos.to_pixels parent_length).map (fun px => px / parent_length)
      | none => some ((i : ℚ) / (((num_stops - 1 : ℕ) : ℚ)))
    match posQ, DrawContext.resolveStops parent_length num_stops (i + 1) rest with
    | some p, some rest2 => some ((p, stop.color) :: rest2)
    | _, _ => none

/-- Source `DrawContext::draw_gradient` (draw.rs lines 368-446), with the
entity's styled gradient, cached bounds and the layout parent's cached
width/height passed in directly.  The result is the paint written by the
linear-gradient arm (`none` when the paint is left untouched or a stop
resolution panics). -/
def DrawContext.draw_gradient (gradient : Option Gradient) (bounds : BoundingBox)
    (parent_width parent_height : ℚ) : Option Paint :=
  match gradient with
  | some (.Linear lg) =>
    let q := DrawContext.gradientLine lg.direction bounds parent_width parent_height
    let end_x := q.2.2.1
    let end_y := q.2.2.2.1
    let parent_length := q.2.2.2.2
    let num_stops := lg.stops.length
    match DrawContext.resolveStops parent_length num_stops 0 lg.stops with
    | some st => some ⟨bounds.x, bounds.y, bounds.x + end_x, bounds.y + end_y, st⟩
    | none => none
  | _ => none

/-! ## Event context state (event.rs: focus, capture, invalidation flags) -/

/-- Pseudo-class flags relevant to the focus protocol; the remaining bits of
`PseudoClassFlags` are untouched by the functions under scrutiny. -/
structure PseudoClassFlags where
  focus : Bool
  focusVisible : Bool
  focusWithin : Bool
deriving DecidableEq, Repr

/-- The process-wide invalidation-flags word (`SystemFlags`): independent
restyle / relayout / redraw / reflow bits. -/
structure SystemFlags where
  restyle : Bool
  relayout : Bool
  redraw : Bool
  reflow : Bool
deriving DecidableEq, Repr

/-- Messages carried by the enqueued window events; only the focus events are
distinguished, every other message is an opaque code. -/
inductive WindowEvent where
  | FocusOut
  | FocusIn
  | OtherEvent (code : ℕ)
deriving DecidableEq, Repr

/-- Event propagation mode of an enqueued event. -/
inductive Propagation where
  | Up
  | Direct
deriving DecidableEq, Repr

/-- An event as pushed on the event queue by `emit_to`: message, target
entity, origin entity and propagation mode. -/
structure Event where
  message : WindowEvent
  target : Entity
  origin : Entity
  propagation : Propagation
deriving DecidableEq, Repr

/-- The state visible through an `EventContext`: the current entity, the
captured/focused slots, the entity tree (external — only its ancestor
traversal `parent_iter` is consumed, embedded as the list it yields), the
sparse pseudo-class table, the invalidation flags, the event queue, and the
window-size / user-scale-factor fields. -/
structure EventState where
  current : Entity
  captured : Entity
  focused : Entity
  tree : Entity → List Entity
  pseudo_classes : Entity → Option PseudoClassFlags
  system_flags : SystemFlags
  event_queue : List Event
  window_size : ℕ × ℕ
  user_scale_factor : ℚ

/-- Pointwise update of the sparse pseudo-class table. -/
def EventState.setPC (s : EventState) (e : Entity) (pc : PseudoClassFlags) : EventState :=
  { s with pseudo_classes := fun e2 => if e2 = e then some pc else s.pseudo_classes e2 }

/-- `Style::needs_restyle`: sets the restyle bit. -/
def EventState.needs_restyle (s : EventState) : EventState :=
  { s with system_flags := { s.system_flags with restyle := true } }

/-- Source `EmitContext::emit_to` for `EventContext` (event.rs lines 592-596):
pushes an event with the given target, origin the current entity, and direct
propagation onto the back of the queue. -/
def EventContext.emit_to (s : EventState) (target : Entity) (message : WindowEvent) :
    EventState :=
  { s with event_queue := s.event_queue ++ [⟨message, target, s.current, Propagation.Direct⟩] }

/-- Source `EventContext::capture` (event.rs lines 283-285): unconditionally
overwrites the captured slot with the current entity. -/
def EventContext.capture (s : EventState) : EventState := { s with captured := s.current }

/-- Source `EventContext::release` (event.rs lines 288-292): clears the
captured slot only when the current entity is the holder. -/
def EventContext.release (s : EventState) : EventState :=
  if s.current = s.captured then { s with captured := Entity.null } else s

/-- The per-entity flag mutation of `set_focus_pseudo_classes` (event.rs lines
296-301): `FOCUS` is set to `enabled`; `FOCUS_VISIBLE` is set to `enabled`
when `!enabled || focus_visible`. -/
def setFocusFlagsOn (pc : PseudoClassFlags) (enabled focus_visible : Bool) :
    PseudoClassFlags :=
  let pc1 := { pc with focus := enabled }
  if !enabled || focus_visible then { pc1 with focusVisible := enabled } else pc1

/-- One iteration of the ancestor loop of `set_focus_pseudo_classes`
(event.rs lines 303-308): sets `FOCUS_WITHIN` to `enabled` on the entity when
it has a pseudo-class row. -/
def focusWithinStep (enabled : Bool) (e : Entity) (s : EventState) : EventState :=
  match s.pseudo_classes e with
  | some pc => s.setPC e { pc with focusWithin := enabled }
  | none => s

/-- The ancestor loop of `set_focus_pseudo_classes` (event.rs lines 303-308):
walks the given `parent_iter` list. -/
def focusWithinPass (enabled : Bool) : List Entity → EventState → EventState
  | [], s => s
  | e :: rest, s => focusWithinPass enabled rest (focusWithinStep enabled e s)

/-- The opening row update of `set_focus_pseudo_classes` (event.rs lines
296-301): rewrites the target's row through `setFocusFlagsOn` when it exists. -/
def setFocusStep (s : EventState) (focused : Entity) (enabled focus_visible : Bool) :
    EventState :=
  match s.pseudo_classes focused with
  | some pc => s.setPC focused (setFocusFlagsOn pc enabled focus_visible)
  | none => s

/-- Source `EventContext::set_focus_pseudo_classes` (event.rs lines 295-309). -/
def EventContext.set_focus_pseudo_classes (s : EventState) (focused : Entity)
    (enabled focus_visible : Bool) : EventState :=
  let s1 := setFocusStep s focused enabled focus_visible
  focusWithinPass enabled (s1.tree focused) s1

/-- Source `EventContext::focus_with_visibility` (event.rs lines 312-324):
clear the focus pseudo-classes of the old target, emit `FocusOut`/`FocusIn`
and commit the new focus entity when the target changes, set the focus
pseudo-classes of the new target, and request a restyle. -/
def EventContext.focus_with_visibility (s : EventState) (focus_visible : Bool) : EventState :=
  let old_focus := s.focused
  let new_focus := s.current
  let s1 := EventContext.set_focus_pseudo_classes s old_focus false focus_visible
  let s2 :=
    if s1.current ≠ s1.focused then
      let sa := EventContext.emit_to s1 old_focus WindowEvent.FocusOut
      let sb := EventContext.emit_to sa new_focus WindowEvent.FocusIn
      { sb with focused := sb.current }
    else s1
  let s3 := EventContext.set_focus_pseudo_classes s2 new_focus true focus_visible
  s3.needs_restyle

/-- Source `EventContext::set_window_size` (event.rs lines 535-537): only
stores the new size — no invalidation flag is touched. -/
def EventContext.set_window_size (s : EventState) (new_size : ℕ × ℕ) : EventState :=
  { s with window_size := new_size }

/-- Source `EventContext::set_user_scale_factor` (event.rs lines 550-554):
stores the new factor, then sets the `RELAYOUT` and `REFLOW` bits. -/
def EventContext.set_user_scale_factor (s : EventState) (new_factor : ℚ) : EventState :=
  let s1 := { s with user_scale_factor := new_factor }
  { s1 with system_flags := { s1.system_flags with relayout := true, reflow := true } }

/-- Claim C2: `EventContext::clip_region` returns the root bounds for
(visible, visible), the entity's own clip box for (hidden, hidden), and for
mixed modes combines the hidden axis's extent from the own clip box with the
visible axis's extent from the root bounds — i.e. it agrees with the
axis-independent description of the specification. -/
theorem EventContext.clip_region_matches_axiswise (overflowx overflowy : Option Overflow)
    (clip_path : Option ClipPath) (bounds root_bounds : BoundingBox) (dpi : ℚ) :
    EventContext.clip_region overflowx overflowy clip_path bounds root_bounds dpi =
      EventContext.clip_region_axiswise overflowx overflowy clip_path bounds root_bounds dpi := by
  unfold EventContext.clip_region EventContext.clip_region_axiswise
  cases hx : overflowx.getD Overflow.default <;>
    cases hy : overflowy.getD Overflow.default <;>
      simp [BoundingBox.from_min_max, BoundingBox.left, BoundingBox.right,
        BoundingBox.top, BoundingBox.bottom]

/-! ## Helper lemmas about the focus machinery -/

theorem EventState.setPC_misc (s : EventState) (e : Entity) (pc : PseudoClassFlags) :
    (s.setPC e pc).current = s.current ∧ (s.setPC e pc).captured = s.captured ∧
    (s.setPC e pc).focused = s.focused ∧ (s.setPC e pc).tree = s.tree ∧
    (s.setPC e pc).system_flags = s.system_flags ∧
    (s.setPC e pc).event_queue = s.event_queue ∧
    (s.setPC e pc).window_size = s.window_size ∧
    (s.setPC e pc).user_scale_factor = s.user_scale_factor :=
  ⟨rfl, rfl, rfl, rfl, rfl, rfl, rfl, rfl⟩

theorem focusWithinStep_misc (b : Bool) (e : Entity) (s : EventState) :
    (focusWithinStep b e s).current = s.current ∧
    (focusWithinStep b e s).captured = s.captured ∧
    (focusWithinStep b e s).focused = s.focused ∧
    (focusWithinStep b e s).tree = s.tree ∧
    (focusWithinStep b e s).system_flags = s.system_flags ∧
    (focusWithinStep b e s).event_queue = s.event_queue ∧
    (focusWithinStep b e s).window_size = s.window_size ∧
    (focusWithinStep b e s).user_scale_factor = s.user_scale_factor := by
  unfold focusWithinStep
  cases s.pseudo_classes e <;> exact ⟨rfl, rfl, rfl, rfl, rfl, rfl, rfl, rfl⟩

theorem focusWithinPass_misc (b : Bool) (l : List Entity) (s : EventState) :
    (focusWithinPass b l s).current = s.current ∧
    (focusWithinPass b l s).captured = s.captured ∧
    (focusWithinPass b l s).focused = s.focused ∧
    (focusWithinPass b l s).tree = s.tree ∧
    (focusWithinPass b l s).system_flags = s.system_flags ∧
    (focusWithinPass b l s).event_queue = s.event_queue ∧
    (focusWithinPass b l s).window_size = s.window_size ∧
    (focusWithinPass b l s).user_scale_factor = s.user_scale_factor := by
  induction l generalizing s with
  | nil => exact ⟨rfl, rfl, rfl, rfl, rfl, rfl, rfl, rfl⟩
  | cons e rest ih =>
    have hstep := focusWithinStep_misc b e s
    have hrest := ih (focusWithinStep b e s)
    simp only [focusWithinPass]
    exact ⟨hrest.1.trans hstep.1, hrest.2.1.trans hstep.2.1,
      hrest.2.2.1.trans hstep.2.2.1, hrest.2.2.2.1.trans hstep.2.2.2.1,
      hrest.2.2.2.2.1.trans hstep.2.2.2.2.1,
      hrest.2.2.2.2.2.1.trans hstep.2.2.2.2.2.1,
      hrest.2.2.2.2.2.2.1.trans hstep.2.2.2.2.2.2.1,
      hrest.2.2.2.2.2.2.2.trans hstep.2.2.2.2.2.2.2⟩

theorem setFocusStep_misc (s : EventState) (ent : Entity) (en fv : Bool) :
    (setFocusStep s ent en fv).current = s.current ∧
    (setFocusStep s ent en fv).captured = s.captured ∧
    (setFocusStep s ent en fv).focused = s.focused ∧
    (setFocusStep s ent en fv).tree = s.tree ∧
    (setFocusStep s ent en fv).system_flags = s.system_flags ∧
    (setFocusStep s ent en fv).event_queue = s.event_queue ∧
    (setFocusStep s ent en fv).window_size = s.window_size ∧
    (setFocusStep s ent en fv).user_scale_factor = s.user_scale_factor := by
  unfold setFocusStep
  cases s.pseudo_classes ent <;> exact ⟨rfl, rfl, rfl, rfl, rfl, rfl, rfl, rfl⟩

theorem set_focus_pseudo_classes_misc (s : EventState) (ent : Entity) (en fv : Bool) :
    (EventContext.set_focus_pseudo_classes s ent en fv).current = s.current ∧
    (EventContext.set_focus_pseudo_classes s ent en fv).captured = s.captured ∧
    (EventContext.set_focus_pseudo_classes s ent en fv).focused = s.focused ∧
    (EventContext.set_focus_pseudo_classes s ent en fv).tree = s.tree ∧
    (EventContext.set_focus_pseudo_classes s ent en fv).system_flags = s.system_flags ∧
    (EventContext.set_focus_pseudo_classes s ent en fv).event_queue = s.event_queue ∧
    (EventContext.set_focus_pseudo_classes s ent en fv).window_size = s.window_size ∧
    (EventContext.set_focus_pseudo_classes s ent en fv).user_scale_factor =
      s.user_scale_factor := by
  unfold EventContext.set_focus_pseudo_classes
  have hstep := setFocusStep_misc s ent en fv
  have hpass := focusWithinPass_misc en ((setFocusStep s ent en fv).tree ent)
    (setFocusStep s ent en fv)
  exact ⟨hpass.1.trans hstep.1, hpass.2.1.trans hstep.2.1,
    hpass.2.2.1.trans hstep.2.2.1, hpass.2.2.2.1.trans hstep.2.2.2.1,
    hpass.2.2.2.2.1.trans hstep.2.2.2.2.1,
    hpass.2.2.2.2.2.1.trans hstep.2.2.2.2.2.1,
    hpass.2.2.2.2.2.2.1.trans hstep.2.2.2.2.2.2.1,
    hpass.2.2.2.2.2.2.2.trans hstep.2.2.2.2.2.2.2⟩

theorem fwMap_idem (b : Bool) (o : Option PseudoClassFlags) :
    ((o.map (fun pc => { pc with focusWithin := b })).map
        (fun pc => { pc with focusWithin := b })) =
      o.map (fun pc => { pc with focusWithin := b }) := by
  cases o <;> rfl

theorem focusWithinStep_pc (b : Bool) (e : Entity) (s : EventState) (e2 : Entity) :
    (focusWithinStep b e s).pseudo_classes e2 =
      if e2 = e then (s.pseudo_classes e).map (fun pc => { pc with focusWithin := b })
      else s.pseudo_classes e2 := by
  unfold focusWithinStep
  cases h : s.pseudo_classes e with
  | none =>
    by_cases he : e2 = e
    · simp [he, h]
    · simp [he]
  | some pc =>
    by_cases he : e2 = e
    · simp [EventState.setPC, he, h]
    · simp [EventState.setPC, he]

theorem focusWithinPass_pc (b : Bool) (l : List Entity) (s : EventState) (e2 : Entity) :
    (focusWithinPass b l s).pseudo_classes e2 =
      if e2 ∈ l then (s.pseudo_classes e2).map (fun pc => { pc with focusWithin := b })
      else s.pseudo_classes e2 := by
  induction l generalizing s with
  | nil => simp [focusWithinPass]
  | cons e rest ih =>
    simp only [focusWithinPass]
    rw [ih, focusWithinStep_pc]
    by_cases h1 : e2 ∈ rest
    · by_cases h2 : e2 = e
      · subst h2
        simp only [h1, if_true, List.mem_cons, true_or, or_true]
        cases s.pseudo_classes e2 <;> rfl
      · simp [h1, h2]
    · by_cases h2 : e2 = e
      · subst h2
        simp [h1, List.mem_cons]
      · simp [h1, h2, List.mem_cons]

theorem setFocusStep_pc (s : EventState) (ent : Entity) (en fv : Bool) (e2 : Entity) :
    (setFocusStep s ent en fv).pseudo_classes e2 =
      if e2 = ent then (s.pseudo_classes ent).map (fun pc => setFocusFlagsOn pc en fv)
      else s.pseudo_classes e2 := by
  unfold setFocusStep
  cases h : s.pseudo_classes ent with
  | none =>
    by_cases he : e2 = ent
    · simp [he, h]
    · simp [he]
  | some pc =>
    by_cases he : e2 = ent
    · simp [EventState.setPC, he, h]
    · simp [EventState.setPC, he]

theorem set_focus_pseudo_classes_pc (s : EventState) (ent : Entity) (en fv : Bool)
    (e2 : Entity) :
    (EventContext.set_focus_pseudo_classes s ent en fv).pseudo_classes e2 =
      (fun base =>
        if e2 ∈ s.tree ent then base.map (fun pc => { pc with focusWithin := en })
        else base)
      (if e2 = ent then (s.pseudo_classes ent).map (fun pc => setFocusFlagsOn pc en fv)
       else s.pseudo_classes e2) := by
  unfold EventContext.set_focus_pseudo_classes
  have htree : (setFocusStep s ent en fv).tree = s.tree := (setFocusStep_misc s ent en fv).2.2.2.1
  rw [focusWithinPass_pc, setFocusStep_pc, htree]

theorem sfpc_current (s : EventState) (ent : Entity) (en fv : Bool) :
    (EventContext.set_focus_pseudo_classes s ent en fv).current = s.current :=
  (set_focus_pseudo_classes_misc s ent en fv).1

theorem sfpc_focused (s : EventState) (ent : Entity) (en fv : Bool) :
    (EventContext.set_focus_pseudo_classes s ent en fv).focused = s.focused :=
  (set_focus_pseudo_classes_misc s ent en fv).2.2.1

theorem sfpc_tree (s : EventState) (ent : Entity) (en fv : Bool) :
    (EventContext.set_focus_pseudo_classes s ent en fv).tree = s.tree :=
  (set_focus_pseudo_classes_misc s ent en fv).2.2.2.1

theorem sfpc_queue (s : EventState) (ent : Entity) (en fv : Bool) :
    (EventContext.set_focus_pseudo_classes s ent en fv).event_queue = s.event_queue :=
  (set_focus_pseudo_classes_misc s ent en fv).2.2.2.2.2.1

theorem sfpc_captured (s : EventState) (ent : Entity) (en fv : Bool) :
    (EventContext.set_focus_pseudo_classes s ent en fv).captured = s.captured :=
  (set_focus_pseudo_classes_misc s ent en fv).2.1

theorem needs_restyle_queue (s : EventState) : s.needs_restyle.event_queue = s.event_queue := rfl

theorem needs_restyle_focused (s : EventState) : s.needs_restyle.focused = s.focused := rfl

theorem needs_restyle_current (s : EventState) : s.needs_restyle.current = s.current := rfl

theorem needs_restyle_pc (s : EventState) :
    s.needs_restyle.pseudo_classes = s.pseudo_classes := rfl

theorem needs_restyle_tree (s : EventState) : s.needs_restyle.tree = s.tree := rfl

theorem emit_to_queue (s : EventState) (t : Entity) (m : WindowEvent) :
    (EventContext.emit_to s t m).event_queue =
      s.event_queue ++ [⟨m, t, s.current, Propagation.Direct⟩] := rfl

theorem emit_to_current (s : EventState) (t : Entity) (m : WindowEvent) :
    (EventContext.emit_to s t m).current = s.current := rfl

theorem emit_to_focused (s : EventState) (t : Entity) (m : WindowEvent) :
    (EventContext.emit_to s t m).focused = s.focused := rfl

theorem emit_to_pc (s : EventState) (t : Entity) (m : WindowEvent) :
    (EventContext.emit_to s t m).pseudo_classes = s.pseudo_classes := rfl

theorem emit_to_tree (s : EventState) (t : Entity) (m : WindowEvent) :
    (EventContext.emit_to s t m).tree = s.tree := rfl

/-- Claim C1: when the previously focused entity differs from the current one,
`EventContext::focus_with_visibility` enqueues exactly one `FocusOut` event
targeted at the old entity followed by exactly one `FocusIn` event targeted at
the new entity (both with direct propagation and origin the current entity),
and commits the new focus entity; when they coincide, no event is enqueued and
the focused entity is unchanged. -/
theorem EventContext.focus_with_visibility_events (s : EventState) (fv : Bool) :
    (s.focused ≠ s.current →
      (EventContext.focus_with_visibility s fv).event_queue =
        s.event_queue ++
          [⟨WindowEvent.FocusOut, s.focused, s.current, Propagation.Direct⟩,
           ⟨WindowEvent.FocusIn, s.current, s.current, Propagation.Direct⟩] ∧
      (EventContext.focus_with_visibility s fv).focused = s.current) ∧
    (s.focused = s.current →
      (EventContext.focus_with_visibility s fv).event_queue = s.event_queue ∧
      (EventContext.focus_with_visibility s fv).focused = s.focused) := by
  unfold EventContext.focus_with_visibility
  by_cases h : s.current = s.focused
  · constructor
    · intro hne
      exact absurd h.symm hne
    · intro _
      simp only [sfpc_current, sfpc_focused, h, ne_eq, not_true_eq_false, if_false,
        needs_restyle_queue, sfpc_queue, needs_restyle_focused, and_self]
  · constructor
    · intro _
      simp only [sfpc_current, sfpc_focused, ne_eq, h, not_false_eq_true, if_true,
        needs_restyle_queue, sfpc_queue, needs_restyle_focused, emit_to_queue,
        emit_to_current, emit_to_focused, List.append_assoc, List.cons_append,
        List.nil_append, and_self]
    · intro heq
      exact absurd heq.symm h

theorem EventContext.focus_with_visibility_events_witness :
    (({ current := 3, captured := 0, focused := 2,
        tree := fun e => if e = 2 then [2, 1] else if e = 3 then [3, 1] else [1],
        pseudo_classes := fun e => if e ≤ 3 then some ⟨false, false, false⟩ else none,
        system_flags := ⟨false, false, false, false⟩, event_queue := [],
        window_size := (800, 600), user_scale_factor := 1 } : EventState).focused ≠ 3 ∧
      (EventContext.focus_with_visibility
        { current := 3, captured := 0, focused := 2,
          tree := fun e => if e = 2 then [2, 1] else if e = 3 then [3, 1] else [1],
          pseudo_classes := fun e => if e ≤ 3 then some ⟨false, false, false⟩ else none,
          system_flags := ⟨false, false, false, false⟩, event_queue := [],
          window_size := (800, 600), user_scale_factor := 1 } true).event_queue =
        [⟨WindowEvent.FocusOut, 2, 3, Propagation.Direct⟩,
         ⟨WindowEvent.FocusIn, 3, 3, Propagation.Direct⟩]) ∧
    ((EventContext.focus_with_visibility
        { current := 2, captured := 0, focused := 2,
          tree := fun e => if e = 2 then [2, 1] else if e = 3 then [3, 1] else [1],
          pseudo_classes := fun e => if e ≤ 3 then some ⟨false, false, false⟩ else none,
          system_flags := ⟨false, false, false, false⟩, event_queue := [],
          window_size := (800, 600), user_scale_factor := 1 } true).event_queue = []) := by
  refine ⟨⟨by decide, ?_⟩, ?_⟩
  · exact ((EventContext.focus_with_visibility_events _ true).1 (by decide)).1
  · exact ((EventContext.focus_with_visibility_events _ true).2 (by decide)).1

theorem setFocusFlagsOn_false (pc : PseudoClassFlags) (fv : Bool) :
    setFocusFlagsOn pc false fv = ⟨false, false, pc.focusWithin⟩ := rfl

theorem setFocusFlagsOn_focus (pc : PseudoClassFlags) (en fv : Bool) :
    (setFocusFlagsOn pc en fv).focus = en := by
  unfold setFocusFlagsOn
  split <;> rfl

theorem setFocusFlagsOn_fw (pc : PseudoClassFlags) (en fv : Bool) :
    (setFocusFlagsOn pc en fv).focusWithin = pc.focusWithin := by
  unfold setFocusFlagsOn
  split <;> rfl

theorem setFocusFlagsOn_true_vis (pc : PseudoClassFlags) :
    setFocusFlagsOn pc true true = ⟨true, true, pc.focusWithin⟩ := rfl

theorem setFocusFlagsOn_true_novis (pc : PseudoClassFlags) :
    setFocusFlagsOn pc true false = ⟨true, pc.focusVisible, pc.focusWithin⟩ := rfl

/-- Claim C3: after `focus_with_visibility` moves focus from entity A to a
different entity B, the FOCUS pseudo-class is cleared on A and set on B,
FOCUS_VISIBLE is cleared on A unconditionally and set on B only when
visibility was requested (when it is not, B's FOCUS_VISIBLE bit is left
exactly as it was before the call), FOCUS_WITHIN holds on every entity of B's
ancestor chain that has a pseudo-class row, and does not hold on any
row-carrying entity of A's ancestor chain that is not also on B's ancestor
chain. -/
theorem EventContext.focus_pseudo_class_transition (s : EventState) (fv : Bool)
    (hAB : s.focused ≠ s.current)
    (hrowA : (s.pseudo_classes s.focused).isSome = true)
    (hrowB : (s.pseudo_classes s.current).isSome = true) :
    ((EventContext.focus_with_visibility s fv).pseudo_classes s.focused).map
        PseudoClassFlags.focus = some false ∧
    ((EventContext.focus_with_visibility s fv).pseudo_classes s.current).map
        PseudoClassFlags.focus = some true ∧
    ((EventContext.focus_with_visibility s fv).pseudo_classes s.focused).map
        PseudoClassFlags.focusVisible = some false ∧
    (fv = true →
      ((EventContext.focus_with_visibility s fv).pseudo_classes s.current).map
        PseudoClassFlags.focusVisible = some true) ∧
    (fv = false →
      ((EventContext.focus_with_visibility s fv).pseudo_classes s.current).map
        PseudoClassFlags.focusVisible =
        (s.pseudo_classes s.current).map PseudoClassFlags.focusVisible) ∧
    (∀ e ∈ s.tree s.current, (s.pseudo_classes e).isSome = true →
      ((EventContext.focus_with_visibility s fv).pseudo_classes e).map
        PseudoClassFlags.focusWithin = some true) ∧
    (∀ e ∈ s.tree s.focused, e ∉ s.tree s.current → (s.pseudo_classes e).isSome = true →
      ((EventContext.focus_with_visibility s fv).pseudo_classes e).map
        PseudoClassFlags.focusWithin = some false) := by
  have hne : (EventContext.set_focus_pseudo_classes s s.focused false fv).current ≠
      (EventContext.set_focus_pseudo_classes s s.focused false fv).focused := by
    rw [sfpc_current, sfpc_focused]
    exact hAB.symm
  have hpc : ∀ e2 : Entity,
      (EventContext.focus_with_visibility s fv).pseudo_classes e2 =
        (fun base2 : Option PseudoClassFlags =>
          if e2 ∈ s.tree s.current then
            base2.map (fun pc => { pc with focusWithin := true })
          else base2)
        (if e2 = s.current then
            ((EventContext.set_focus_pseudo_classes s s.focused false fv).pseudo_classes
              s.current).map (fun pc => setFocusFlagsOn pc true fv)
          else
            (EventContext.set_focus_pseudo_classes s s.focused false fv).pseudo_classes e2) := by
    intro e2
    simp only [EventContext.focus_with_visibility, ne_eq, hne, not_false_eq_true, if_true,
      needs_restyle_pc]
    rw [set_focus_pseudo_classes_pc]
    simp only [emit_to_tree, sfpc_tree, emit_to_pc, emit_to_current]
  obtain ⟨a0, ha0⟩ := Option.isSome_iff_exists.mp hrowA
  obtain ⟨b0, hb0⟩ := Option.isSome_iff_exists.mp hrowB
  refine ⟨?_, ?_, ?_, ?_, ?_, ?_, ?_⟩
  · rw [hpc]
    simp only [set_focus_pseudo_classes_pc, if_neg hAB, if_pos (rfl : s.focused = s.focused),
      ha0]
    by_cases h1 : s.focused ∈ s.tree s.focused <;>
      by_cases h2 : s.focused ∈ s.tree s.current <;>
        simp [h1, h2, setFocusFlagsOn_false]
  · rw [hpc]
    simp only [set_focus_pseudo_classes_pc, if_pos (rfl : s.current = s.current),
      if_neg hAB.symm, hb0]
    by_cases h1 : s.current ∈ s.tree s.focused <;>
      by_cases h2 : s.current ∈ s.tree s.current <;>
        simp [h1, h2, setFocusFlagsOn_focus]
  · rw [hpc]
    simp only [set_focus_pseudo_classes_pc, if_neg hAB, if_pos (rfl : s.focused = s.focused),
      ha0]
    by_cases h1 : s.focused ∈ s.tree s.focused <;>
      by_cases h2 : s.focused ∈ s.tree s.current <;>
        simp [h1, h2, setFocusFlagsOn_false]
  · intro hfv
    subst hfv
    rw [hpc]
    simp only [set_focus_pseudo_classes_pc, if_pos (rfl : s.current = s.current),
      if_neg hAB.symm, hb0]
    by_cases h1 : s.current ∈ s.tree s.focused <;>
      by_cases h2 : s.current ∈ s.tree s.current <;>
        simp [h1, h2, setFocusFlagsOn_true_vis]
  · intro hfv
    subst hfv
    rw [hpc]
    simp only [set_focus_pseudo_classes_pc, if_pos (rfl : s.current = s.current),
      if_neg hAB.symm, hb0]
    by_cases h1 : s.current ∈ s.tree s.focused <;>
      by_cases h2 : s.current ∈ s.tree s.current <;>
        simp [h1, h2, setFocusFlagsOn_true_novis]
  · intro e he hrow
    obtain ⟨p0, hp0⟩ := Option.isSome_iff_exists.mp hrow
    rw [hpc]
    simp only [set_focus_pseudo_classes_pc, if_pos he]
    by_cases h1 : e = s.current <;> by_cases h2 : e ∈ s.tree s.focused <;>
      by_cases h3 : e = s.focused <;>
        simp_all [setFocusFlagsOn_focus]
  · intro e he hnotB hrow
    obtain ⟨p0, hp0⟩ := Option.isSome_iff_exists.mp hrow
    rw [hpc]
    simp only [set_focus_pseudo_classes_pc, if_neg hnotB, if_pos he]
    by_cases h1 : e = s.current <;> by_cases h3 : e = s.focused <;>
      simp_all [setFocusFlagsOn_fw, setFocusFlagsOn_false]

theorem EventContext.focus_pseudo_class_transition_witness :
    (({ current := 3, captured := 0, focused := 2,
        tree := fun e => if e = 2 then [2, 1] else if e = 3 then [3, 1] else [1],
        pseudo_classes := fun e => if e ≤ 3 then some ⟨false, false, false⟩ else none,
        system_flags := ⟨false, false, false, false⟩, event_queue := [],
        window_size := (800, 600), user_scale_factor := 1 } : EventState).focused ≠ 3) ∧
    ((EventContext.focus_with_visibility
        { current := 3, captured := 0, focused := 2,
          tree := fun e => if e = 2 then [2, 1] else if e = 3 then [3, 1] else [1],
          pseudo_classes := fun e => if e ≤ 3 then some ⟨false, false, false⟩ else none,
          system_flags := ⟨false, false, false, false⟩, event_queue := [],
          window_size := (800, 600), user_scale_factor := 1 } true).pseudo_classes 2).map
      PseudoClassFlags.focus = some false ∧
    ((EventContext.focus_with_visibility
        { current := 3, captured := 0, focused := 2,
          tree := fun e => if e = 2 then [2, 1] else if e = 3 then [3, 1] else [1],
          pseudo_classes := fun e => if e ≤ 3 then some ⟨false, false, false⟩ else none,
          system_flags := ⟨false, false, false, false⟩, event_queue := [],
          window_size := (800, 600), user_scale_factor := 1 } true).pseudo_classes 3).map
      PseudoClassFlags.focus = some true := by
  refine ⟨by decide, ?_, ?_⟩
  · exact (EventContext.focus_pseudo_class_transition _ true (by decide) (by decide)
      (by decide)).1
  · exact (EventContext.focus_pseudo_class_transition _ true (by decide) (by decide)
      (by decide)).2.1

/-- Claim C9: `capture` unconditionally overwrites the captured slot with the
current entity (touching nothing else), and `release` nulls the slot exactly
when the current entity is the holder, leaving the whole state unchanged
otherwise. -/
theorem EventContext.capture_release_protocol (s : EventState) :
    (EventContext.capture s = { s with captured := s.current }) ∧
    (s.current = s.captured →
      EventContext.release s = { s with captured := Entity.null }) ∧
    (s.current ≠ s.captured → EventContext.release s = s) := by
  refine ⟨rfl, ?_, ?_⟩
  · intro h
    unfold EventContext.release
    rw [if_pos h]
  · intro h
    unfold EventContext.release
    rw [if_neg h]

theorem EventContext.capture_release_protocol_witness :
    ((5 : Entity) ≠ 7 ∧
      EventContext.release
        { current := 5, captured := 7, focused := 1, tree := fun _ => [],
          pseudo_classes := fun _ => none, system_flags := ⟨false, false, false, false⟩,
          event_queue := [], window_size := (100, 100), user_scale_factor := 1 } =
        { current := 5, captured := 7, focused := 1, tree := fun _ => [],
          pseudo_classes := fun _ => none, system_flags := ⟨false, false, false, false⟩,
          event_queue := [], window_size := (100, 100), user_scale_factor := 1 }) ∧
    ((7 : Entity) = 7 ∧
      (EventContext.release
        { current := 7, captured := 7, focused := 1, tree := fun _ => [],
          pseudo_classes := fun _ => none, system_flags := ⟨false, false, false, false⟩,
          event_queue := [], window_size := (100, 100), user_scale_factor := 1 }).captured =
        Entity.null) := by
  refine ⟨⟨by decide, ?_⟩, ⟨rfl, ?_⟩⟩
  · exact (EventContext.capture_release_protocol _).2.2 (by decide)
  · rw [(EventContext.capture_release_protocol _).2.1 (by decide)]

/-- Claim C5 (amended): `set_user_scale_factor` sets exactly the RELAYOUT and
REFLOW bits, leaves the restyle/redraw bits and every other state component
except the scale-factor field untouched; `set_window_size` only stores the new
size and sets no invalidation flag at all. -/
theorem EventContext.scale_factor_and_window_size_effects (s : EventState) (f : ℚ)
    (sz : ℕ × ℕ) :
    (EventContext.set_user_scale_factor s f).system_flags.relayout = true ∧
    (EventContext.set_user_scale_factor s f).system_flags.reflow = true ∧
    (EventContext.set_user_scale_factor s f).system_flags.restyle =
      s.system_flags.restyle ∧
    (EventContext.set_user_scale_factor s f).system_flags.redraw = s.system_flags.redraw ∧
    (EventContext.set_user_scale_factor s f).user_scale_factor = f ∧
    (EventContext.set_user_scale_factor s f).current = s.current ∧
    (EventContext.set_user_scale_factor s f).captured = s.captured ∧
    (EventContext.set_user_scale_factor s f).focused = s.focused ∧
    (EventContext.set_user_scale_factor s f).pseudo_classes = s.pseudo_classes ∧
    (EventContext.set_user_scale_factor s f).event_queue = s.event_queue ∧
    (EventContext.set_user_scale_factor s f).window_size = s.window_size ∧
    EventContext.set_window_size s sz = { s with window_size := sz } :=
  ⟨rfl, rfl, rfl, rfl, rfl, rfl, rfl, rfl, rfl, rfl, rfl, rfl⟩

/-- Claim C5 counterexample: `set_window_size` does NOT set the RELAYOUT and
REFLOW invalidation flags — starting from an all-clear flags word, both bits
are still clear after the call, refuting the claim that both setters set
them. -/
theorem EventContext.set_window_size_sets_no_flags :
    (EventContext.set_window_size
      { current := 1, captured := 0, focused := 1, tree := fun _ => [],
        pseudo_classes := fun _ => none, system_flags := ⟨false, false, false, false⟩,
        event_queue := [], window_size := (100, 100), user_scale_factor := 1 }
      (800, 600)).system_flags.relayout = false ∧
    (EventContext.set_window_size
      { current := 1, captured := 0, focused := 1, tree := fun _ => [],
        pseudo_classes := fun _ => none, system_flags := ⟨false, false, false, false⟩,
        event_queue := [], window_size := (100, 100), user_scale_factor := 1 }
      (800, 600)).system_flags.reflow = false :=
  ⟨rfl, rfl⟩

/-- Claim C10: the round trip `physical_to_logical(logical_to_physical(x))`
returns `x` through the `EventContext` pair (which delegates to the style),
but NOT through the `DrawContext` pair — `DrawContext::physical_to_logical`
multiplies by the dpi factor instead of dividing, so at dpi factor 2 the round
trip of 1 yields 4. -/
theorem DrawContext.physical_to_logical_not_inverse :
    DrawContext.physical_to_logical 2 (DrawContext.logical_to_physical 2 1) = 4 ∧
    EventContext.physical_to_logical 2 (EventContext.logical_to_physical 2 1) = 1 := by
  constructor <;>
    norm_num [DrawContext.physical_to_logical, DrawContext.logical_to_physical,
      EventContext.physical_to_logical, EventContext.logical_to_physical,
      Style.physical_to_logical, Style.logical_to_physical]

/-- Claim C4: for identical bounds, scale factor and identical styled
translate / rotate / scale / transform-function-list values,
`EventContext::transform` with a transform-origin styled at the entity's own
bounds center (50 percent in each axis) produces exactly the same affine
transform as with no transform-origin styled. -/
theorem EventContext.transform_origin_bracketed (st : TransformStyle)
    (bounds : BoundingBox) (scale : ℚ) :
    EventContext.transform
      { st with transform_origin := some (PositionValue.mk
          (LengthOrPercentage.Percentage (1/2)) (LengthOrPercentage.Percentage (1/2))) }
      bounds scale =
    EventContext.transform { st with transform_origin := none } bounds scale := by
  have horigin : EventContext.transformOrigin
      { st with transform_origin := some (PositionValue.mk
          (LengthOrPercentage.Percentage (1/2)) (LengthOrPercentage.Percentage (1/2))) }
      bounds scale =
      EventContext.transformOrigin { st with transform_origin := none } bounds scale := by
    simp only [EventContext.transformOrigin, originOffset, toPixels2,
      Transform2D.new_translation, Transform2D.premultiply, Transform2D.multiply,
      BoundingBox.left, BoundingBox.top, BoundingBox.center, Transform2D.mk.injEq]
    norm_num
    constructor <;> ring
  unfold EventContext.transform
  rw [horigin]

/-- Claim C6: every DrawContext color accessor returns the stored r, g, b with
the stored alpha multiplied by the cached opacity (through the `as u8` cast)
when the property is stored; when absent, `font_color` defaults to opaque
black and the five other accessors default to fully transparent black, those
defaults being constants independent of the opacity. -/
theorem DrawContext.color_property_resolution (cx : DrawView) (c : Color) :
    (cx.style.font_color = some c →
      DrawContext.font_color cx =
        Color.rgba c.r c.g c.b (f32AsU8 (cx.opacity * (c.a : ℚ)))) ∧
    (cx.style.font_color = none → DrawContext.font_color cx = Color.rgba 0 0 0 255) ∧
    (cx.style.background_color = some c →
      DrawContext.background_color cx =
        Color.rgba c.r c.g c.b (f32AsU8 (cx.opacity * (c.a : ℚ)))) ∧
    (cx.style.background_color = none →
      DrawContext.background_color cx = Color.rgba 0 0 0 0) ∧
    (cx.style.border_color = some c →
      DrawContext.border_color cx =
        Color.rgba c.r c.g c.b (f32AsU8 (cx.opacity * (c.a : ℚ)))) ∧
    (cx.style.border_color = none → DrawContext.border_color cx = Color.rgba 0 0 0 0) ∧
    (cx.style.outline_color = some c →
      DrawContext.outline_color cx =
        Color.rgba c.r c.g c.b (f32AsU8 (cx.opacity * (c.a : ℚ)))) ∧
    (cx.style.outline_color = none → DrawContext.outline_color cx = Color.rgba 0 0 0 0) ∧
    (cx.style.selection_color = some c →
      DrawContext.selection_color cx =
        Color.rgba c.r c.g c.b (f32AsU8 (cx.opacity * (c.a : ℚ)))) ∧
    (cx.style.selection_color = none →
      DrawContext.selection_color cx = Color.rgba 0 0 0 0) ∧
    (cx.style.caret_color = some c →
      DrawContext.caret_color cx =
        Color.rgba c.r c.g c.b (f32AsU8 (cx.opacity * (c.a : ℚ)))) ∧
    (cx.style.caret_color = none → DrawContext.caret_color cx = Color.rgba 0 0 0 0) := by
  refine ⟨?_, ?_, ?_, ?_, ?_, ?_, ?_, ?_, ?_, ?_, ?_, ?_⟩ <;> intro h <;>
    simp [DrawContext.font_color, DrawContext.background_color, DrawContext.border_color,
      DrawContext.outline_color, DrawContext.selection_color, DrawContext.caret_color,
      DrawContext.get_color_property, h]

theorem DrawContext.color_property_resolution_witness :
    (({ style :=
          { background_color := some ⟨10, 20, 30, 100⟩, border_color := none,
            outline_color := none, selection_color := none, caret_color := none,
            font_color := none, border_width := none, outline_width := none,
            outline_offset := none, border_top_left_radius := none,
            border_top_right_radius := none, border_bottom_left_radius := none,
            border_bottom_right_radius := none },
        opacity := 1, bounds := ⟨0, 0, 100, 40⟩, dpi_factor := 1 } : DrawView).style.font_color =
        none ∧
      DrawContext.font_color
        { style :=
            { background_color := some ⟨10, 20, 30, 100⟩, border_color := none,
              outline_color := none, selection_color := none, caret_color := none,
              font_color := none, border_width := none, outline_width := none,
              outline_offset := none, border_top_left_radius := none,
              border_top_right_radius := none, border_bottom_left_radius := none,
              border_bottom_right_radius := none },
          opacity := 1, bounds := ⟨0, 0, 100, 40⟩, dpi_factor := 1 } =
        Color.rgba 0 0 0 255) ∧
    DrawContext.background_color
      { style :=
          { background_color := some ⟨10, 20, 30, 100⟩, border_color := none,
            outline_color := none, selection_color := none, caret_color := none,
            font_color := none, border_width := none, outline_width := none,
            outline_offset := none, border_top_left_radius := none,
            border_top_right_radius := none, border_bottom_left_radius := none,
            border_bottom_right_radius := none },
        opacity := 1/2, bounds := ⟨0, 0, 100, 40⟩, dpi_factor := 1 } =
      Color.rgba 10 20 30 50 := by
  refine ⟨⟨rfl, ?_⟩, ?_⟩
  · exact (DrawContext.color_property_resolution _ ⟨10, 20, 30, 100⟩).2.1 rfl
  · refine ((DrawContext.color_property_resolution _ ⟨10, 20, 30, 100⟩).2.2.1 rfl).trans ?_
    norm_num [f32AsU8, Color.rgba]
    rfl

/-- Claim C7: every length-as-pixels accessor resolves a stored percentage `p`
to `round(p * min(bounds.w, bounds.h) * dpi_factor)`, a stored pixel length
`v` to `round(v * dpi_factor)`, and an absent property to `0`; in particular
50 percent with bounds (w=100, h=40) at dpi factor 1 resolves to 20 physical
pixels.  Each of the seven accessors is the generic resolver applied to its
own style field. -/
theorem DrawContext.length_property_resolution :
    (∀ (p dpi : ℚ) (b : BoundingBox),
      DrawContext.get_length_property (some (LengthOrPercentage.Percentage p)) b dpi =
        some (roundQ (p * min b.w b.h * dpi))) ∧
    (∀ (v dpi : ℚ) (b : BoundingBox),
      DrawContext.get_length_property
        (some (LengthOrPercentage.Length (Length.Value (LengthValue.Px v)))) b dpi =
        some (roundQ (v * dpi))) ∧
    (∀ (dpi : ℚ) (b : BoundingBox),
      DrawContext.get_length_property none b dpi = some 0) ∧
    DrawContext.get_length_property (some (LengthOrPercentage.Percentage (1/2)))
      ⟨0, 0, 100, 40⟩ 1 = some 20 ∧
    (∀ cx : DrawView,
      DrawContext.border_width cx =
        DrawContext.get_length_property cx.style.border_width cx.bounds cx.dpi_factor ∧
      DrawContext.outline_width cx =
        DrawContext.get_length_property cx.style.outline_width cx.bounds cx.dpi_factor ∧
      DrawContext.outline_offset cx =
        DrawContext.get_length_property cx.style.outline_offset cx.bounds cx.dpi_factor ∧
      DrawContext.border_top_left_radius cx =
        DrawContext.get_length_property cx.style.border_top_left_radius cx.bounds
          cx.dpi_factor ∧
      DrawContext.border_top_right_radius cx =
        DrawContext.get_length_property cx.style.border_top_right_radius cx.bounds
          cx.dpi_factor ∧
      DrawContext.border_bottom_left_radius cx =
        DrawContext.get_length_property cx.style.border_bottom_left_radius cx.bounds
          cx.dpi_factor ∧
      DrawContext.border_bottom_right_radius cx =
        DrawContext.get_length_property cx.style.border_bottom_right_radius cx.bounds
          cx.dpi_factor) := by
  refine ⟨fun p dpi b => rfl, fun v dpi b => rfl, fun dpi b => rfl, ?_,
    fun cx => ⟨rfl, rfl, rfl, rfl, rfl, rfl, rfl⟩⟩
  show some (roundQ (DrawContext.logical_to_physical 1 (1/2 * min (100 : ℚ) 40))) = some 20
  norm_num [DrawContext.logical_to_physical, roundQ]

theorem resolveStops_get (plen : ℚ) (n : ℕ) (stops : List GradientStop) :
    ∀ (i : ℕ) (out : List (ℚ × Color)),
      DrawContext.resolveStops plen n i stops = some out →
      ∀ (j : ℕ) (stop : GradientStop), stops.get? j = some stop →
        (match stop.position with
         | some pos => ∃ px, pos.to_pixels plen = some px ∧
             out.get? j = some (px / plen, stop.color)
         | none =>
             out.get? j = some (((i + j : ℕ) : ℚ) / ((n - 1 : ℕ) : ℚ), stop.color)) := by
  induction stops with
  | nil =>
    intro i out h j stop hj
    simp at hj
  | cons st rest ih =>
    intro i out h j stop hj
    simp only [DrawContext.resolveStops] at h
    cases hpos : st.position with
    | some pos =>
      cases hpx : pos.to_pixels plen with
      | none => simp [hpos, hpx] at h
      | some px =>
        cases hrec : DrawContext.resolveStops plen n (i + 1) rest with
        | none => simp [hpos, hpx, hrec] at h
        | some rest2 =>
          simp only [hpos, hpx, hrec, Option.map_some', Option.some.injEq] at h
          subst h
          cases j with
          | zero =>
            simp only [List.get?] at hj
            injection hj with hj
            subst hj
            simp only [hpos, List.get?]
            exact ⟨px, hpx, rfl⟩
          | succ j2 =>
            simp only [List.get?] at hj
            have hrest := ih (i + 1) rest2 hrec j2 stop hj
            cases hsp : stop.position with
            | some pos2 =>
              simp only [hsp] at hrest
              obtain ⟨px2, hpx2, hget⟩ := hrest
              simp only [hsp, List.get?]
              exact ⟨px2, hpx2, hget⟩
            | none =>
              simp only [hsp] at hrest
              simp only [hsp, List.get?]
              have harith : i + 1 + j2 = i + (j2 + 1) := by omega
              rw [harith] at hrest
              exact hrest
    | none =>
      cases hrec : DrawContext.resolveStops plen n (i + 1) rest with
      | none => simp [hpos, hrec] at h
      | some rest2 =>
        simp only [hpos, hrec, Option.some.injEq] at h
        subst h
        cases j with
        | zero =>
          simp only [List.get?] at hj
          injection hj with hj
          subst hj
          simp only [hpos, List.get?, Option.some.injEq]
          norm_num
        | succ j2 =>
          simp only [List.get?] at hj
          have hrest := ih (i + 1) rest2 hrec j2 stop hj
          cases hsp : stop.position with
          | some pos2 =>
            simp only [hsp] at hrest
            obtain ⟨px2, hpx2, hget⟩ := hrest
            simp only [hsp, List.get?]
            exact ⟨px2, hpx2, hget⟩
          | none =>
            simp only [hsp] at hrest
            simp only [hsp, List.get?]
            have harith : i + 1 + j2 = i + (j2 + 1) := by omega
            rw [harith] at hrest
            exact hrest

/-- Claim C8: in `DrawContext::draw_gradient`, a linear gradient whose corner
direction is anything but exactly (right, bottom) degenerates to a zero-length
gradient (equal endpoints, zero governing parent length); and every stop's
position is its resolved pixel offset divided by the governing parent length
when explicit, else `index / (number_of_stops - 1)`. -/
theorem DrawContext.gradient_resolution :
    (∀ (hk : HorizontalPositionKeyword) (vk : VerticalPositionKeyword)
        (b : BoundingBox) (pw ph : ℚ) (stops : List GradientStop) (p : Paint),
      ¬(hk = HorizontalPositionKeyword.Right ∧ vk = VerticalPositionKeyword.Bottom) →
      DrawContext.draw_gradient (some (Gradient.Linear ⟨LineDirection.Corner hk vk, stops⟩))
          b pw ph = some p →
      p.x1 = p.x0 ∧ p.y1 = p.y0 ∧
        (DrawContext.gradientLine (LineDirection.Corner hk vk) b pw ph).2.2.2.2 = 0) ∧
    (∀ (lg : LinearGradient) (b : BoundingBox) (pw ph : ℚ) (p : Paint) (j : ℕ)
        (stop : GradientStop),
      DrawContext.draw_gradient (some (Gradient.Linear lg)) b pw ph = some p →
      lg.stops.get? j = some stop →
      (match stop.position with
       | some pos => ∃ px,
           pos.to_pixels ((DrawContext.gradientLine lg.direction b pw ph).2.2.2.2) =
             some px ∧
           p.stops.get? j =
             some (px / (DrawContext.gradientLine lg.direction b pw ph).2.2.2.2, stop.color)
       | none => p.stops.get? j =
           some ((j : ℚ) / ((lg.stops.length - 1 : ℕ) : ℚ), stop.color))) := by
  constructor
  · intro hk vk b pw ph stops p hcorner hdraw
    cases hk with
    | Left =>
      cases vk with
      | Top =>
          simp only [DrawContext.draw_gradient, DrawContext.gradientLine] at hdraw
          cases hres : DrawContext.resolveStops 0 stops.length 0 stops with
          | none =>
            rw [hres] at hdraw
            simp at hdraw
          | some out =>
            rw [hres] at hdraw
            simp only [Option.some.injEq] at hdraw
            subst hdraw
            exact ⟨by norm_num, by norm_num, by simp [DrawContext.gradientLine]⟩
      | Bottom =>
          simp only [DrawContext.draw_gradient, DrawContext.gradientLine] at hdraw
          cases hres : DrawContext.resolveStops 0 stops.length 0 stops with
          | none =>
            rw [hres] at hdraw
            simp at hdraw
          | some out =>
            rw [hres] at hdraw
            simp only [Option.some.injEq] at hdraw
            subst hdraw
            exact ⟨by norm_num, by norm_num, by simp [DrawContext.gradientLine]⟩
    | Right =>
      cases vk with
      | Top =>
          simp only [DrawContext.draw_gradient, DrawContext.gradientLine] at hdraw
          cases hres : DrawContext.resolveStops 0 stops.length 0 stops with
          | none =>
            rw [hres] at hdraw
            simp at hdraw
          | some out =>
            rw [hres] at hdraw
            simp only [Option.some.injEq] at hdraw
            subst hdraw
            exact ⟨by norm_num, by norm_num, by simp [DrawContext.gradientLine]⟩
      | Bottom => exact absurd ⟨rfl, rfl⟩ hcorner
  · intro lg b pw ph p j stop hdraw hget
    simp only [DrawContext.draw_gradient] at hdraw
    cases hres : DrawContext.resolveStops
        ((DrawContext.gradientLine lg.direction b pw ph).2.2.2.2) lg.stops.length 0
        lg.stops with
    | none =>
      rw [hres] at hdraw
      simp at hdraw
    | some out =>
      rw [hres] at hdraw
      simp only [Option.some.injEq] at hdraw
      subst hdraw
      have hidx := resolveStops_get
        ((DrawContext.gradientLine lg.direction b pw ph).2.2.2.2) lg.stops.length
        lg.stops 0 out hres j stop hget
      cases hsp : stop.position with
      | some pos =>
        simp only [hsp] at hidx
        simp only [hsp]
        exact hidx
      | none =>
        simp only [hsp] at hidx
        simp only [hsp]
        simpa using hidx

theorem DrawContext.gradient_resolution_witness :
    (¬(HorizontalPositionKeyword.Left = HorizontalPositionKeyword.Right ∧
        VerticalPositionKeyword.Top = VerticalPositionKeyword.Bottom) ∧
      DrawContext.draw_gradient
        (some (Gradient.Linear ⟨LineDirection.Corner HorizontalPositionKeyword.Left
          VerticalPositionKeyword.Top,
          [⟨none, ⟨1, 2, 3, 4⟩⟩,
           ⟨some (LengthOrPercentage.Percentage (1/2)), ⟨5, 6, 7, 8⟩⟩]⟩))
        ⟨10, 20, 30, 40⟩ 100 50 =
        some ⟨10, 20, 10, 20, [(0, ⟨1, 2, 3, 4⟩), (0, ⟨5, 6, 7, 8⟩)]⟩ ∧
      (⟨10, 20, 10, 20, [(0, ⟨1, 2, 3, 4⟩), (0, ⟨5, 6, 7, 8⟩)]⟩ : Paint).x1 =
        (⟨10, 20, 10, 20, [(0, ⟨1, 2, 3, 4⟩), (0, ⟨5, 6, 7, 8⟩)]⟩ : Paint).x0) ∧
    ((⟨10, 20, 10, 20, [(0, ⟨1, 2, 3, 4⟩), (0, ⟨5, 6, 7, 8⟩)]⟩ : Paint).stops.get? 0 =
      some (0, ⟨1, 2, 3, 4⟩)) := by
  have hdraw : DrawContext.draw_gradient
      (some (Gradient.Linear ⟨LineDirection.Corner HorizontalPositionKeyword.Left
        VerticalPositionKeyword.Top,
        [⟨none, ⟨1, 2, 3, 4⟩⟩,
         ⟨some (LengthOrPercentage.Percentage (1/2)), ⟨5, 6, 7, 8⟩⟩]⟩))
      ⟨10, 20, 30, 40⟩ 100 50 =
      some ⟨10, 20, 10, 20, [(0, ⟨1, 2, 3, 4⟩), (0, ⟨5, 6, 7, 8⟩)]⟩ := by
    simp only [DrawContext.draw_gradient, DrawContext.gradientLine,
      DrawContext.resolveStops, LengthOrPercentage.to_pixels]
    norm_num
  refine ⟨⟨by decide, hdraw, ?_⟩, ?_⟩
  · exact ((DrawContext.gradient_resolution).1 _ _ _ _ _ _ _ (by decide) hdraw).1
  · have hstop := (DrawContext.gradient_resolution).2
      ⟨LineDirection.Corner HorizontalPositionKeyword.Left VerticalPositionKeyword.Top,
        [⟨none, ⟨1, 2, 3, 4⟩⟩,
         ⟨some (LengthOrPercentage.Percentage (1/2)), ⟨5, 6, 7, 8⟩⟩]⟩
      ⟨10, 20, 30, 40⟩ 100 50
      ⟨10, 20, 10, 20, [(0, ⟨1, 2, 3, 4⟩), (0, ⟨5, 6, 7, 8⟩)]⟩ 0 ⟨none, ⟨1, 2, 3, 4⟩⟩
      hdraw (by decide)
    exact hstop.trans (by norm_num)
